import Mathlib

/-!
Verification development for the 2Dcutter packing core.

The Python source (models.py, wrap_rules.py, packing.py, costing.py) is
shallowly embedded below.  Dimensions, coordinates and costs are modelled as
exact rationals (`ℚ`); Python exceptions are modelled by `Option`-valued
functions returning `none`; in-place mutation of the board/row objects is
modelled by explicit state passing.
-/

set_option maxHeartbeats 1000000
set_option maxRecDepth 8000

-- ===================================================================
-- models.py : data structures
-- ===================================================================

/-- Embeds `MaterialSpec` (models.py). -/
structure MaterialSpec where
  name : String
  length_mm : ℚ
  width_mm : ℚ
  cost : ℚ
deriving DecidableEq

/-- Embeds `ItemSpec` (models.py). -/
structure ItemSpec where
  name : String
  length_mm : ℚ
  width_mm : ℚ
  quantity : Nat
  rotation_allowed : Bool
  wrap_l : ℚ
  wrap_r : ℚ
  wrap_t : ℚ
  wrap_b : ℚ
  material_key : Option String
deriving DecidableEq

/-- Embeds `PlacedItem` (models.py). -/
structure PlacedItem where
  spec : ItemSpec
  material_name : String
  board_index : Nat
  x_mm : ℚ
  y_mm : ℚ
  width_mm : ℚ
  height_mm : ℚ
  rotated : Bool
deriving DecidableEq

/-- Embeds `CutRect` (models.py). -/
structure CutRect where
  x_mm : ℚ
  y_mm : ℚ
  width_mm : ℚ
  height_mm : ℚ
  cut_length_mm : ℚ
  orientation : String
deriving DecidableEq

/-- Embeds `RowLayout` (models.py); the mutable fields `items` and
`x_cursor` are plain fields updated by state passing. -/
structure RowLayout where
  y_mm : ℚ
  h_mm : ℚ
  board_width_mm : ℚ
  items : List PlacedItem
  x_cursor : ℚ
deriving DecidableEq

/-- Embeds `BoardLayout` (models.py). -/
structure BoardLayout where
  material : MaterialSpec
  index : Nat
  kerf : ℚ
  rows : List RowLayout
  placed_items : List PlacedItem
  cut_rects : List CutRect
deriving DecidableEq

/-- Embeds `BoardLayout.used_length_mm` (models.py). -/
def BoardLayout.used_length_mm (b : BoardLayout) : ℚ :=
  match b.rows.getLast? with
  | none => 0
  | some last => last.y_mm + last.h_mm

/-- Python's `max(l, default=d)` on a list of rationals. -/
def pymax (l : List ℚ) (d : ℚ) : ℚ :=
  match l with
  | [] => d
  | x :: xs => xs.foldl max x

/-- Sum of the item widths of one row (the generator inside
`BoardLayout.used_width_mm`, models.py). -/
def row_items_width (r : RowLayout) : ℚ :=
  (r.items.map (fun p => p.width_mm)).sum

/-- Embeds `BoardLayout.used_width_mm` (models.py). -/
def BoardLayout.used_width_mm (b : BoardLayout) : ℚ :=
  match b.rows with
  | [] => 0
  | _ => pymax (b.rows.map row_items_width) 0

/-- Embeds `BoardLayout.classify_board_size` (models.py). -/
def BoardLayout.classify_board_size (b : BoardLayout) : String :=
  let uL := b.used_length_mm
  let uW := b.used_width_mm
  let L := b.material.length_mm
  let W := b.material.width_mm
  let narrow_ok := uL ≤ L / 2 ∧ uW ≤ W
  let wide_ok := uL ≤ L ∧ uW ≤ W / 2
  if narrow_ok ∧ wide_ok then "narrow_half"
  else if narrow_ok then "narrow_half"
  else if wide_ok then "wide_half"
  else "full"

-- ===================================================================
-- wrap_rules.py
-- ===================================================================

/-- Embeds `_side_count` (wrap_rules.py). -/
def _side_count (a b : ℚ) : Nat :=
  (if a > 0 then 1 else 0) + (if b > 0 then 1 else 0)

/-- Embeds `orientation_allowed_for_wrap` (wrap_rules.py). -/
def orientation_allowed_for_wrap (length_mm width_mm wrap_l wrap_r wrap_t wrap_b : ℚ) :
    Bool × String :=
  if ¬(_side_count wrap_l wrap_r > 0) ∧ ¬(_side_count wrap_t wrap_b > 0) then (true, "")
  else if _side_count wrap_t wrap_b > 0 then
    if length_mm ≥ 150 ∧ width_mm ≥ 150 then (true, "")
    else (false, "needs ≥150×150 mm for perpendicular wrap, has " ++
      toString length_mm ++ "×" ++ toString width_mm ++ " mm")
  else if _side_count wrap_l wrap_r > 0 ∧ ¬(_side_count wrap_t wrap_b > 0) then
    if length_mm ≥ 300 ∧ width_mm ≥ 65 then (true, "")
    else (false, "needs ≥300×65 mm for parallel wrap, has " ++
      toString length_mm ++ "×" ++ toString width_mm ++ " mm")
  else (true, "")

/-- Embeds `get_orientation_candidates` (wrap_rules.py).  Returns the list of
`(width_mm, height_mm, rotated)` orientations and the failure reason. -/
def get_orientation_candidates (item : ItemSpec) (enforce : Bool) :
    List (ℚ × ℚ × Bool) × String :=
  let resA := if enforce then
      orientation_allowed_for_wrap item.length_mm item.width_mm
        item.wrap_l item.wrap_r item.wrap_t item.wrap_b
    else (true, "")
  let candidates : List (ℚ × ℚ × Bool) :=
    if resA.1 then [(item.width_mm, item.length_mm, false)] else []
  let failure_reason := if resA.1 then "" else resA.2
  let step2 : List (ℚ × ℚ × Bool) × String :=
    if item.rotation_allowed then
      let resB := if enforce then
          orientation_allowed_for_wrap item.width_mm item.length_mm
            item.wrap_l item.wrap_r item.wrap_t item.wrap_b
        else (true, "")
      if resB.1 then (candidates ++ [(item.length_mm, item.width_mm, true)], failure_reason)
      else (candidates, if failure_reason = "" then resB.2 else failure_reason)
    else (candidates, failure_reason)
  if step2.1 = [] then
    ([], if step2.2 = "" then "orientation invalid under wrap rules" else step2.2)
  else (step2.1, "")

/-- The `problems` list built inside `validate_wrapping` (wrap_rules.py). -/
def wrap_problems (items : List ItemSpec) : List String :=
  items.filterMap (fun it =>
    let r := get_orientation_candidates it true
    if r.1 = [] then some (it.name ++ ": " ++ r.2) else none)

/-- Embeds `validate_wrapping` (wrap_rules.py); `some msg` models the raised
`ValueError`, `none` models a normal return. -/
def validate_wrapping (items : List ItemSpec) : Option String :=
  let problems := wrap_problems items
  if problems = [] then none
  else some ("Wrapping constraints violated for the following items:\n" ++
    String.intercalate "\n" (problems.map (fun p => "- " ++ p)))

-- ===================================================================
-- packing.py : material assignment
-- ===================================================================

/-- The cost-per-area key used by `assign_any_items_to_materials`
(packing.py). -/
def cost_per_area (m : MaterialSpec) : ℚ :=
  m.cost / (m.length_mm * m.width_mm)

/-- The per-material fit test inside `assign_any_items_to_materials`
(packing.py): the item has orientation candidates and at least one of them
fits the material physically. -/
def material_fits (it : ItemSpec) (enforce : Bool) (m : MaterialSpec) : Bool :=
  let cands := (get_orientation_candidates it enforce).1
  !cands.isEmpty &&
    cands.any (fun c => decide (c.1 ≤ m.width_mm) && decide (c.2.1 ≤ m.length_mm))

/-- Python's `min(l, key=f)` (first minimal element) on a nonempty list,
given as head and tail. -/
def minByFirst (f : MaterialSpec → ℚ) (m : MaterialSpec) (ms : List MaterialSpec) :
    MaterialSpec :=
  ms.foldl (fun best x => if f x < f best then x else best) m

/-- The body of the per-item loop of `assign_any_items_to_materials`
(packing.py): items with a pinned material key are left untouched, the others
get the cheapest-per-area fitting material; `none` models the raised
`ValueError` when no material fits. -/
def assignOne (mats : List MaterialSpec) (enforce : Bool) (it : ItemSpec) :
    Option ItemSpec :=
  if it.material_key.isSome then some it
  else
    let valid_materials := mats.filter (material_fits it enforce)
    match valid_materials with
    | [] => none
    | m :: ms =>
      some { it with material_key := some (minByFirst cost_per_area m ms).name }

/-- The item loop of `assign_any_items_to_materials` (packing.py). -/
def assignList (mats : List MaterialSpec) (enforce : Bool) :
    List ItemSpec → Option (List ItemSpec)
  | [] => some []
  | it :: rest =>
    match assignOne mats enforce it with
    | none => none
    | some it2 =>
      match assignList mats enforce rest with
      | none => none
      | some rest2 => some (it2 :: rest2)

/-- Embeds `assign_any_items_to_materials` (packing.py); the materials dict is
modelled as an association list in iteration order, and the mutated item list
is returned (`none` models the raised `ValueError`). -/
def assign_any_items_to_materials (items : List ItemSpec)
    (materials : List (String × MaterialSpec)) (enforce : Bool) :
    Option (List ItemSpec) :=
  if materials = [] then none
  else assignList (materials.map Prod.snd) enforce items

-- ===================================================================
-- packing.py : board / placement helpers
-- ===================================================================

/-- Embeds `try_place_on_row` (packing.py).  On success returns the updated
row, the optional vertical kerf rectangle and the placed item; the caller
(`tryPlaceOnRowAt`) threads them into the board. -/
def tryPlaceOnRow (row : RowLayout) (item : ItemSpec) (kerf : ℚ)
    (mat_name : String) (b_index : Nat) (w h : ℚ) (rotated : Bool) :
    Option (RowLayout × Option CutRect × PlacedItem) :=
  if h ≠ row.h_mm then none
  else
    let needed := w + (if row.items.isEmpty then 0 else kerf)
    if row.x_cursor + needed > row.board_width_mm then none
    else if row.items.isEmpty then
      let p : PlacedItem :=
        ⟨item, mat_name, b_index, row.x_cursor, row.y_mm, w, h, rotated⟩
      some ({ row with items := row.items ++ [p], x_cursor := row.x_cursor + w },
        none, p)
    else
      let kr : CutRect := ⟨row.x_cursor, row.y_mm, kerf, row.h_mm, row.h_mm, "V"⟩
      let x1 := row.x_cursor + kerf
      let p : PlacedItem := ⟨item, mat_name, b_index, x1, row.y_mm, w, h, rotated⟩
      some ({ row with items := row.items ++ [p], x_cursor := x1 + w }, some kr, p)

/-- `try_place_on_row` lifted to a board and a row position, mirroring the
Python aliasing of the row object inside `board.rows`. -/
def tryPlaceOnRowAt (b : BoardLayout) (i : Nat) (item : ItemSpec)
    (w h : ℚ) (rotated : Bool) : Option BoardLayout :=
  match b.rows[i]? with
  | none => none
  | some row =>
    match tryPlaceOnRow row item b.kerf b.material.name b.index w h rotated with
    | none => none
    | some (row2, kro, p) =>
      some { b with
        rows := b.rows.set i row2,
        cut_rects := b.cut_rects ++ kro.toList,
        placed_items := b.placed_items ++ [p] }

/-- Embeds `start_new_row` (packing.py); returns the updated board and the
index of the row just appended. -/
def startNewRow (b : BoardLayout) (h : ℚ) : BoardLayout × Nat :=
  match b.rows.getLast? with
  | none =>
    let r : RowLayout := ⟨0, h, b.material.width_mm, [], 0⟩
    ({ b with rows := b.rows ++ [r] }, b.rows.length)
  | some prev =>
    let kr : CutRect := ⟨0, prev.y_mm + prev.h_mm, b.material.width_mm, b.kerf,
      b.material.width_mm, "H"⟩
    let r : RowLayout :=
      ⟨prev.y_mm + prev.h_mm + b.kerf, h, b.material.width_mm, [], 0⟩
    ({ b with rows := b.rows ++ [r], cut_rects := b.cut_rects ++ [kr] },
      b.rows.length)

-- ===================================================================
-- packing.py : build_boards_for_material
-- ===================================================================

/-- The `for row in b.rows` loop of `build_boards_for_material` (packing.py),
scanning the given row positions in order. -/
def tryRowsGo (item : ItemSpec) (w h : ℚ) (rotated : Bool) (b : BoardLayout) :
    List Nat → Option BoardLayout
  | [] => none
  | i :: rest =>
    match tryPlaceOnRowAt b i item w h rotated with
    | some b2 => some b2
    | none => tryRowsGo item w h rotated b rest

/-- Scan all existing rows of a board, top to bottom. -/
def tryRows (b : BoardLayout) (item : ItemSpec) (w h : ℚ) (rotated : Bool) :
    Option BoardLayout :=
  tryRowsGo item w h rotated b (List.range b.rows.length)

/-- The `for w, h, rotated in cands` loop of `build_boards_for_material`
(packing.py) for one open board: existing rows first, then a new-row attempt
with the same candidate.  Note that a failed new-row attempt keeps the
mutated board (`start_new_row` has already appended the row), exactly as in
the source. -/
def tryBoardWithCands (mat : MaterialSpec) (item : ItemSpec) :
    BoardLayout → List (ℚ × ℚ × Bool) → BoardLayout × Bool
  | b, [] => (b, false)
  | b, (w, h, rotated) :: rest =>
    match tryRows b item w h rotated with
    | some b2 => (b2, true)
    | none =>
      if b.used_length_mm + (if b.rows.isEmpty then 0 else b.kerf) + h ≤
          mat.length_mm then
        let nr := startNewRow b h
        match tryPlaceOnRowAt nr.1 nr.2 item w h rotated with
        | some b2 => (b2, true)
        | none => tryBoardWithCands mat item nr.1 rest
      else
        tryBoardWithCands mat item b rest

/-- The `for b in boards` loop of `build_boards_for_material` (packing.py):
boards in creation order; every visited board keeps its (possibly mutated)
state. -/
def tryBoards (mat : MaterialSpec) (item : ItemSpec)
    (cands : List (ℚ × ℚ × Bool)) : List BoardLayout → List BoardLayout × Bool
  | [] => ([], false)
  | b :: bs =>
    let r := tryBoardWithCands mat item b cands
    if r.2 then (r.1 :: bs, true)
    else
      let r2 := tryBoards mat item cands bs
      (r.1 :: r2.1, r2.2)

/-- The new-board branch of `build_boards_for_material` (packing.py): first
candidate fitting the raw board dimensions is placed on a fresh board. -/
def newBoardPlace (mat : MaterialSpec) (kerf : ℚ) (idx : Nat) (item : ItemSpec) :
    List (ℚ × ℚ × Bool) → Option BoardLayout
  | [] => none
  | (w, h, rotated) :: rest =>
    if w ≤ mat.width_mm ∧ h ≤ mat.length_mm then
      let nb : BoardLayout := ⟨mat, idx, kerf, [], [], []⟩
      let nr := startNewRow nb h
      match tryPlaceOnRowAt nr.1 nr.2 item w h rotated with
      | some b2 => some b2
      | none => some nr.1
    else newBoardPlace mat kerf idx item rest

/-- Placement of one unit (the body of the `for unit in units` loop of
`build_boards_for_material`, packing.py).  `none` models the raised
`ValueError`s. -/
def placeUnit (mat : MaterialSpec) (kerf : ℚ) (enforce : Bool)
    (boards : List BoardLayout) (item : ItemSpec) : Option (List BoardLayout) :=
  let cands := (get_orientation_candidates item enforce).1
  if cands = [] then none
  else
    let r := tryBoards mat item cands boards
    if r.2 then some r.1
    else
      match newBoardPlace mat kerf r.1.length item cands with
      | none => none
      | some nb => some (r.1 ++ [nb])

/-- The unit loop of `build_boards_for_material` (packing.py). -/
def placeUnits (mat : MaterialSpec) (kerf : ℚ) (enforce : Bool) :
    List BoardLayout → List ItemSpec → Option (List BoardLayout)
  | boards, [] => some boards
  | boards, u :: rest =>
    match placeUnit mat kerf enforce boards u with
    | none => none
    | some boards2 => placeUnits mat kerf enforce boards2 rest

/-- The sort key `max(it.length_mm, it.width_mm)` of
`build_boards_for_material` (packing.py). -/
def unit_key (it : ItemSpec) : ℚ :=
  max it.length_mm it.width_mm

/-- Stable descending insertion: the element is placed before the first
element with a strictly smaller key. -/
def insertDescUnit (a : ItemSpec) : List ItemSpec → List ItemSpec
  | [] => [a]
  | b :: t => if unit_key a ≥ unit_key b then a :: b :: t else b :: insertDescUnit a t

/-- Python's stable `units.sort(key=..., reverse=True)` of
`build_boards_for_material` (packing.py): the unique descending, stable
reordering by `unit_key`. -/
def sortUnitsDesc : List ItemSpec → List ItemSpec
  | [] => []
  | a :: t => insertDescUnit a (sortUnitsDesc t)

/-- Embeds `build_boards_for_material` (packing.py). -/
def build_boards_for_material (material : MaterialSpec)
    (item_specs : List ItemSpec) (kerf : ℚ) (enforce : Bool) :
    Option (List BoardLayout) :=
  let units := item_specs.flatMap (fun it => List.replicate it.quantity it)
  placeUnits material kerf enforce [] (sortUnitsDesc units)

-- ===================================================================
-- costing.py : material-usage part of compute_summary
-- ===================================================================

/-- Embeds `MaterialUsageSummary` (costing.py). -/
structure MaterialUsageSummary where
  material : MaterialSpec
  full_boards : Nat
  narrow_halves : Nat
  wide_halves : Nat
  billed_quantity : ℚ
  cost : ℚ
deriving DecidableEq

/-- One step of the board-classification loop of `compute_summary`
(costing.py): the accumulator holds (full, narrow, wide) counts. -/
def usageStep (acc : Nat × Nat × Nat) (b : BoardLayout) : Nat × Nat × Nat :=
  let t := b.classify_board_size
  if t = "full" then (acc.1 + 1, acc.2.1, acc.2.2)
  else if t = "narrow_half" then (acc.1, acc.2.1 + 1, acc.2.2)
  else if t = "wide_half" then (acc.1, acc.2.1, acc.2.2 + 1)
  else acc

/-- The per-material board-usage portion of `compute_summary` (costing.py):
classification counts, billed quantity and cost for one material. -/
def computeUsage (mat : MaterialSpec) (boards : List BoardLayout) :
    MaterialUsageSummary :=
  let counts := boards.foldl usageStep (0, 0, 0)
  let halves := counts.2.1 + counts.2.2
  let whole_from_halves := halves / 2
  let leftover_half := halves % 2
  let billed : ℚ := (counts.1 : ℚ) + (whole_from_halves : ℚ) +
    (1 / 2 : ℚ) * (leftover_half : ℚ)
  ⟨mat, counts.1, counts.2.1, counts.2.2, billed, billed * mat.cost⟩

-- ===================================================================
-- Spec-order placement model (for comparison with the source order)
-- ===================================================================

/-- Modelled from the spec: within one board, try every candidate against the
existing rows only (spec section 4.3 step b). -/
def specTryRowsCands (b : BoardLayout) (item : ItemSpec) :
    List (ℚ × ℚ × Bool) → Option BoardLayout
  | [] => none
  | (w, h, rotated) :: rest =>
    match tryRows b item w h rotated with
    | some b2 => some b2
    | none => specTryRowsCands b item rest

/-- Modelled from the spec: phase one of the claimed search order — existing
rows of every open board, for every candidate, before any new-row attempt. -/
def specPhase1 (item : ItemSpec) (cands : List (ℚ × ℚ × Bool)) :
    List BoardLayout → Option (List BoardLayout)
  | [] => none
  | b :: bs =>
    match specTryRowsCands b item cands with
    | some b2 => some (b2 :: bs)
    | none =>
      match specPhase1 item cands bs with
      | some bs2 => some (b :: bs2)
      | none => none

/-- Modelled from the spec: a new-row attempt on one board for each candidate
in order (spec section 4.3 step c); a failed attempt leaves the board
untouched. -/
def specNewRowCands (mat : MaterialSpec) (b : BoardLayout) (item : ItemSpec) :
    List (ℚ × ℚ × Bool) → Option BoardLayout
  | [] => none
  | (w, h, rotated) :: rest =>
    if b.used_length_mm + (if b.rows.isEmpty then 0 else b.kerf) + h ≤
        mat.length_mm then
      let nr := startNewRow b h
      match tryPlaceOnRowAt nr.1 nr.2 item w h rotated with
      | some b2 => some b2
      | none => specNewRowCands mat b item rest
    else specNewRowCands mat b item rest

/-- Modelled from the spec: phase two of the claimed search order — new-row
attempts on each open board in creation order, for each candidate. -/
def specPhase2 (mat : MaterialSpec) (item : ItemSpec)
    (cands : List (ℚ × ℚ × Bool)) : List BoardLayout → Option (List BoardLayout)
  | [] => none
  | b :: bs =>
    match specNewRowCands mat b item cands with
    | some b2 => some (b2 :: bs)
    | none =>
      match specPhase2 mat item cands bs with
      | some bs2 => some (b :: bs2)
      | none => none

/-- Modelled from the spec: per-unit placement in the claimed priority order
(all existing rows on all boards for all candidates, then new rows on all
boards, then a new board). -/
def specPlaceUnit (mat : MaterialSpec) (kerf : ℚ) (enforce : Bool)
    (boards : List BoardLayout) (item : ItemSpec) : Option (List BoardLayout) :=
  let cands := (get_orientation_candidates item enforce).1
  if cands = [] then none
  else
    match specPhase1 item cands boards with
    | some boards2 => some boards2
    | none =>
      match specPhase2 mat item cands boards with
      | some boards2 => some boards2
      | none =>
        match newBoardPlace mat kerf boards.length item cands with
        | none => none
        | some nb => some (boards ++ [nb])

/-- Modelled from the spec: the unit loop under the claimed search order. -/
def specPlaceUnits (mat : MaterialSpec) (kerf : ℚ) (enforce : Bool) :
    List BoardLayout → List ItemSpec → Option (List BoardLayout)
  | boards, [] => some boards
  | boards, u :: rest =>
    match specPlaceUnit mat kerf enforce boards u with
    | none => none
    | some boards2 => specPlaceUnits mat kerf enforce boards2 rest

/-- Modelled from the spec: `build_boards_for_material` under the claimed
search order. -/
def build_boards_spec_order (material : MaterialSpec)
    (item_specs : List ItemSpec) (kerf : ℚ) (enforce : Bool) :
    Option (List BoardLayout) :=
  let units := item_specs.flatMap (fun it => List.replicate it.quantity it)
  specPlaceUnits material kerf enforce [] (sortUnitsDesc units)

-- ===================================================================
-- General helper lemmas
-- ===================================================================

lemma side_count_pos_iff (a b : ℚ) : _side_count a b > 0 ↔ (0 < a ∨ 0 < b) := by
  by_cases h1 : 0 < a <;> by_cases h2 : 0 < b <;>
    simp [_side_count, h1, h2, gt_iff_lt]

lemma string_ne_empty_of_length_pos (s : String) (h : 0 < s.length) : s ≠ "" := by
  intro hc
  rw [hc] at h
  simp at h

lemma append_ne_empty_left (s t : String) (h : 0 < s.length) : (s ++ t) ≠ "" := by
  apply string_ne_empty_of_length_pos
  rw [String.length_append]
  omega

lemma append_length_pos_left (s t : String) (h : 0 < s.length) : 0 < (s ++ t).length := by
  rw [String.length_append]
  omega

-- ===================================================================
-- C4 : wrap-rule evaluator characterization
-- ===================================================================

/-- C4: `orientation_allowed_for_wrap` allows an orientation exactly when no
flag is positive, or some top/bottom flag is positive and length ≥ 150 and
width ≥ 150, or no top/bottom flag but some left/right flag is positive and
length ≥ 300 and width ≥ 65 (the perpendicular rule taking precedence), and
its reason string is nonempty exactly when the orientation is rejected, in
which case it names the required minimums and the actual dimensions. -/
theorem c4_wrap_rule_characterization (L W wl wr wt wb : ℚ) :
    ((orientation_allowed_for_wrap L W wl wr wt wb).1 = true ↔
      ((¬(0 < wl ∨ 0 < wr) ∧ ¬(0 < wt ∨ 0 < wb)) ∨
       ((0 < wt ∨ 0 < wb) ∧ 150 ≤ L ∧ 150 ≤ W) ∨
       (¬(0 < wt ∨ 0 < wb) ∧ (0 < wl ∨ 0 < wr) ∧ 300 ≤ L ∧ 65 ≤ W))) ∧
    ((orientation_allowed_for_wrap L W wl wr wt wb).2 = "" ↔
      (orientation_allowed_for_wrap L W wl wr wt wb).1 = true) ∧
    ((0 < wt ∨ 0 < wb) → (orientation_allowed_for_wrap L W wl wr wt wb).1 = false →
      (orientation_allowed_for_wrap L W wl wr wt wb).2 =
        "needs ≥150×150 mm for perpendicular wrap, has " ++
          toString L ++ "×" ++ toString W ++ " mm") ∧
    (¬(0 < wt ∨ 0 < wb) → (0 < wl ∨ 0 < wr) →
      (orientation_allowed_for_wrap L W wl wr wt wb).1 = false →
      (orientation_allowed_for_wrap L W wl wr wt wb).2 =
        "needs ≥300×65 mm for parallel wrap, has " ++
          toString L ++ "×" ++ toString W ++ " mm") := by
  by_cases hQ : 0 < wt ∨ 0 < wb
  · by_cases hT : (150 : ℚ) ≤ L ∧ (150 : ℚ) ≤ W
    · have he : orientation_allowed_for_wrap L W wl wr wt wb = (true, "") := by
        simp [orientation_allowed_for_wrap, side_count_pos_iff, hQ, hT.1, hT.2]
      rw [he]
      simp [hQ, hT.1, hT.2]
    · have he : orientation_allowed_for_wrap L W wl wr wt wb =
          (false, "needs ≥150×150 mm for perpendicular wrap, has " ++
            toString L ++ "×" ++ toString W ++ " mm") := by
        simp only [orientation_allowed_for_wrap, side_count_pos_iff, ge_iff_le]
        rw [if_neg (by tauto), if_pos hQ, if_neg hT]
      rw [he]
      refine ⟨?_, ?_, fun _ _ => rfl, fun h _ _ => absurd hQ h⟩
      · simp only [Bool.false_eq_true, false_iff]
        tauto
      · simp only [Bool.false_eq_true, iff_false]
        exact append_ne_empty_left _ _ (append_length_pos_left _ _
          (append_length_pos_left _ _ (append_length_pos_left _ _ (by decide))))
  · by_cases hP : 0 < wl ∨ 0 < wr
    · by_cases hT : (300 : ℚ) ≤ L ∧ (65 : ℚ) ≤ W
      · have he : orientation_allowed_for_wrap L W wl wr wt wb = (true, "") := by
          simp only [orientation_allowed_for_wrap, side_count_pos_iff, ge_iff_le]
          rw [if_neg (by tauto), if_neg hQ, if_pos ⟨hP, hQ⟩, if_pos hT]
        rw [he]
        simp [hQ, hP, hT.1, hT.2]
      · have he : orientation_allowed_for_wrap L W wl wr wt wb =
            (false, "needs ≥300×65 mm for parallel wrap, has " ++
              toString L ++ "×" ++ toString W ++ " mm") := by
          simp only [orientation_allowed_for_wrap, side_count_pos_iff, ge_iff_le]
          rw [if_neg (by tauto), if_neg hQ, if_pos ⟨hP, hQ⟩, if_neg hT]
        rw [he]
        refine ⟨?_, ?_, fun h _ => absurd h hQ, fun _ _ _ => rfl⟩
        · simp only [Bool.false_eq_true, false_iff]
          tauto
        · simp only [Bool.false_eq_true, iff_false]
          exact append_ne_empty_left _ _ (append_length_pos_left _ _
            (append_length_pos_left _ _ (append_length_pos_left _ _ (by decide))))
    · have he : orientation_allowed_for_wrap L W wl wr wt wb = (true, "") := by
        simp [orientation_allowed_for_wrap, side_count_pos_iff, hQ, hP]
      rw [he]
      simp [hQ, hP]

-- ===================================================================
-- C5 : the 300×60 left-flag item
-- ===================================================================

/-- The 300×60 mm item with a positive left wrap flag and rotation
disabled. -/
def item300x60 : ItemSpec := ⟨"X", 300, 60, 1, false, 1, 0, 0, 0, none⟩

/-- The same item with rotation allowed. -/
def item300x60rot : ItemSpec := ⟨"X", 300, 60, 1, true, 1, 0, 0, 0, none⟩

/-- C5 counterexample: with rotation allowed the 300×60 left-flag item yields
zero orientation candidates, not one as the claim states (60×300 fails the
300×65 rule as well). -/
theorem c5_rotation_counterexample :
    (get_orientation_candidates item300x60rot true).1 = [] ∧
    ¬(get_orientation_candidates item300x60rot true).1.length = 1 := by
  constructor
  · with_unfolding_all decide
  · with_unfolding_all decide

/-- C5 amended: under full enforcement the 300×60 left-flag item yields zero
orientation candidates with rotation disabled, and still zero candidates with
rotation allowed. -/
theorem c5_amended_zero_candidates :
    (get_orientation_candidates item300x60 true).1 = [] ∧
    (get_orientation_candidates item300x60rot true).1 = [] := by
  constructor
  · with_unfolding_all decide
  · with_unfolding_all decide

/-- Witness for C4 at a concrete rejected orientation (100×200 with a top
flag). -/
theorem c4_wrap_rule_characterization_witness :
    (0 < (1 : ℚ) ∨ 0 < (0 : ℚ)) ∧
    (orientation_allowed_for_wrap 100 200 0 0 1 0).2 =
      "needs ≥150×150 mm for perpendicular wrap, has " ++
        toString (100 : ℚ) ++ "×" ++ toString (200 : ℚ) ++ " mm" :=
  ⟨Or.inl one_pos,
    (c4_wrap_rule_characterization 100 200 0 0 1 0).2.2.1 (Or.inl one_pos)
      (by with_unfolding_all decide)⟩

-- ===================================================================
-- C3 : the packer can return a board with an empty row
-- ===================================================================

/-- Failing input for C3: a 1000 mm wide, 2000 mm long board and two units of
a 500×1200 item with rotation allowed. -/
def matC3 : MaterialSpec := ⟨"MDF", 2000, 1000, 100⟩

/-- The 500×1200 item, quantity 2, rotation allowed, no wrap flags. -/
def itemC3 : ItemSpec := ⟨"P", 500, 1200, 2, true, 0, 0, 0, 0, some "MDF"⟩

/-- C3 failing-input evaluation: packing two 500×1200 units (rotation
allowed) on a 1000×2000 board with zero kerf returns a single board whose
second row holds no items, together with a horizontal kerf rectangle that was
inserted for that empty row: the second unit's first candidate (1200 wide)
passes the vertical fit check, `start_new_row` mutates the board, and the
subsequent `try_place_on_row` fails on width, leaving the empty row behind. -/
theorem c3_empty_row_failing_input :
    ((build_boards_for_material matC3 [itemC3] 0 true).map
      (fun bs => bs.map (fun b => b.rows.map (fun r => r.items.length)))) =
        some [[2, 0]] ∧
    ((build_boards_for_material matC3 [itemC3] 0 true).map
      (fun bs => bs.map (fun b =>
        (b.cut_rects.filter (fun c => c.orientation = "H")).length))) =
        some [1] := by
  constructor
  · with_unfolding_all decide
  · with_unfolding_all decide

-- ===================================================================
-- C7 : board classifier
-- ===================================================================

lemma foldl_max_mem (l : List ℚ) (x : ℚ) :
    l.foldl max x = x ∨ l.foldl max x ∈ l := by
  induction l generalizing x with
  | nil => exact Or.inl rfl
  | cons a t ih =>
    rw [List.foldl_cons]
    rcases ih (max x a) with h | h
    · rcases max_choice x a with hm | hm
      · exact Or.inl (by rw [h, hm])
      · refine Or.inr ?_
        rw [h, hm]
        simp
    · exact Or.inr (List.mem_cons_of_mem a h)

lemma le_foldl_max (l : List ℚ) (x : ℚ) :
    x ≤ l.foldl max x ∧ ∀ y ∈ l, y ≤ l.foldl max x := by
  induction l generalizing x with
  | nil => exact ⟨le_refl x, by simp⟩
  | cons a t ih =>
    obtain ⟨h1, h2⟩ := ih (max x a)
    refine ⟨le_trans (le_max_left x a) h1, ?_⟩
    intro y hy
    rcases List.mem_cons.mp hy with he | hmem
    · rw [he]
      exact le_trans (le_max_right x a) h1
    · exact h2 y hmem

/-- C7: used length is the bottom edge of the last row (0 with no rows), used
width is the maximum over rows of the sum of item widths (0 with no rows),
and classification is narrow half whenever the narrow-half condition holds
(even if the wide-half condition also holds), wide half when only the
wide-half condition holds, and full otherwise. -/
theorem c7_classifier (b : BoardLayout) :
    (b.rows = [] → b.used_length_mm = 0 ∧ b.used_width_mm = 0) ∧
    (∀ h : b.rows ≠ [],
      b.used_length_mm = (b.rows.getLast h).y_mm + (b.rows.getLast h).h_mm) ∧
    (b.rows ≠ [] →
      (∃ r ∈ b.rows, b.used_width_mm = row_items_width r) ∧
      ∀ r ∈ b.rows, row_items_width r ≤ b.used_width_mm) ∧
    b.classify_board_size =
      (if b.used_length_mm ≤ b.material.length_mm / 2 ∧
          b.used_width_mm ≤ b.material.width_mm then "narrow_half"
       else if b.used_length_mm ≤ b.material.length_mm ∧
          b.used_width_mm ≤ b.material.width_mm / 2 then "wide_half"
       else "full") := by
  refine ⟨?_, ?_, ?_, ?_⟩
  · intro h
    simp [BoardLayout.used_length_mm, BoardLayout.used_width_mm, h]
  · intro h
    simp [BoardLayout.used_length_mm, List.getLast?_eq_getLast _ h]
  · intro h
    obtain ⟨r, rs, hr⟩ := List.exists_cons_of_ne_nil h
    have hw : BoardLayout.used_width_mm b =
        (rs.map row_items_width).foldl max (row_items_width r) := by
      simp [BoardLayout.used_width_mm, pymax, hr]
    constructor
    · rcases foldl_max_mem (rs.map row_items_width) (row_items_width r) with hm | hm
      · exact ⟨r, by simp [hr], by rw [hw, hm]⟩
      · obtain ⟨r2, hr2, hr2e⟩ := List.mem_map.mp hm
        exact ⟨r2, by simp [hr, hr2], by rw [hw, hr2e]⟩
    · intro r2 hr2
      obtain ⟨h1, h2⟩ := le_foldl_max (rs.map row_items_width) (row_items_width r)
      rw [hr] at hr2
      rcases List.mem_cons.mp hr2 with rfl | hr2m
      · rw [hw]; exact h1
      · rw [hw]; exact h2 _ (List.mem_map_of_mem row_items_width hr2m)
  · by_cases hn : b.used_length_mm ≤ b.material.length_mm / 2 ∧
        b.used_width_mm ≤ b.material.width_mm <;>
      by_cases hwd : b.used_length_mm ≤ b.material.length_mm ∧
        b.used_width_mm ≤ b.material.width_mm / 2 <;>
      simp [BoardLayout.classify_board_size, hn, hwd]

/-- Witness for C7 at a concrete board with one row. -/
theorem c7_classifier_witness :
    (∃ r ∈ (BoardLayout.mk ⟨"M", 1000, 1000, 100⟩ 0 0
        [⟨0, 800, 1000, [⟨⟨"A", 800, 800, 1, false, 0, 0, 0, 0, some "M"⟩,
          "M", 0, 0, 0, 800, 800, false⟩], 800⟩] [] []).rows,
      (BoardLayout.mk ⟨"M", 1000, 1000, 100⟩ 0 0
        [⟨0, 800, 1000, [⟨⟨"A", 800, 800, 1, false, 0, 0, 0, 0, some "M"⟩,
          "M", 0, 0, 0, 800, 800, false⟩], 800⟩] [] []).used_width_mm =
        row_items_width r) := by
  exact ((c7_classifier _).2.2.1 (by simp)).1

-- ===================================================================
-- C8 : billed quantity
-- ===================================================================

/-- Number of boards classified "full". -/
def countFull (boards : List BoardLayout) : Nat :=
  (boards.filter (fun b => b.classify_board_size = "full")).length

/-- Number of boards classified "narrow_half". -/
def countNarrow (boards : List BoardLayout) : Nat :=
  (boards.filter (fun b => b.classify_board_size = "narrow_half")).length

/-- Number of boards classified "wide_half". -/
def countWide (boards : List BoardLayout) : Nat :=
  (boards.filter (fun b => b.classify_board_size = "wide_half")).length

/-- Number of boards classified as either kind of half board. -/
def countHalves (boards : List BoardLayout) : Nat :=
  (boards.filter (fun b => b.classify_board_size = "narrow_half" ∨
    b.classify_board_size = "wide_half")).length

lemma classify_trichotomy (b : BoardLayout) :
    b.classify_board_size = "full" ∨ b.classify_board_size = "narrow_half" ∨
    b.classify_board_size = "wide_half" := by
  simp only [BoardLayout.classify_board_size]
  split_ifs <;> simp

lemma foldl_usageStep (boards : List BoardLayout) : ∀ acc : Nat × Nat × Nat,
    boards.foldl usageStep acc =
      (acc.1 + countFull boards, acc.2.1 + countNarrow boards,
        acc.2.2 + countWide boards) := by
  induction boards with
  | nil =>
    intro acc
    simp [countFull, countNarrow, countWide]
  | cons b bs ih =>
    intro acc
    rw [List.foldl_cons, ih]
    rcases classify_trichotomy b with h | h | h <;>
      simp [usageStep, h, countFull, countNarrow, countWide, List.filter_cons] <;>
      omega

lemma countHalves_eq (boards : List BoardLayout) :
    countHalves boards = countNarrow boards + countWide boards := by
  induction boards with
  | nil => simp [countHalves, countNarrow, countWide]
  | cons b bs ih =>
    rcases classify_trichotomy b with h | h | h <;>
      simp [countHalves, countNarrow, countWide, List.filter_cons, h] at ih ⊢ <;>
      omega

/-- Example material for the billing instances. -/
def matEx : MaterialSpec := ⟨"EX", 1000, 1000, 100⟩

/-- An empty board: classifies as a (narrow) half board. -/
def halfBoardEx : BoardLayout := ⟨matEx, 0, 0, [], [], []⟩

/-- Example placed item covering an 800×800 area. -/
def itemEx : PlacedItem :=
  ⟨⟨"A", 800, 800, 1, false, 0, 0, 0, 0, some "EX"⟩, "EX", 0, 0, 0, 800, 800, false⟩

/-- A board using 800×800 of a 1000×1000 material: classifies "full". -/
def fullBoardEx : BoardLayout :=
  ⟨matEx, 0, 0, [⟨0, 800, 1000, [itemEx], 800⟩], [itemEx], []⟩

/-- C8: for every material the billed quantity equals the number of
full-classified boards plus floor(h/2) plus 0.5·(h mod 2) where h is the
total count of half boards; in particular three halves bill as 1.5, four
halves as 2.0 and one full plus one half as 1.5. -/
theorem c8_billed_quantity :
    (∀ (mat : MaterialSpec) (boards : List BoardLayout),
      (computeUsage mat boards).billed_quantity =
        (countFull boards : ℚ) + ((countHalves boards / 2 : Nat) : ℚ) +
          (1 / 2 : ℚ) * ((countHalves boards % 2 : Nat) : ℚ)) ∧
    (computeUsage matEx [halfBoardEx, halfBoardEx, halfBoardEx]).billed_quantity
      = 3 / 2 ∧
    (computeUsage matEx
      [halfBoardEx, halfBoardEx, halfBoardEx, halfBoardEx]).billed_quantity = 2 ∧
    (computeUsage matEx [fullBoardEx, halfBoardEx]).billed_quantity = 3 / 2 := by
  refine ⟨?_, ?_, ?_, ?_⟩
  · intro mat boards
    have h1 := foldl_usageStep boards (0, 0, 0)
    simp only [computeUsage, h1, countHalves_eq, Nat.zero_add]
  · with_unfolding_all decide
  · with_unfolding_all decide
  · with_unfolding_all decide

-- ===================================================================
-- C9 : global wrap validation
-- ===================================================================

/-- C9: `validate_wrapping` returns normally exactly when every item has at
least one legal orientation candidate under full enforcement, and otherwise
raises a single aggregated error whose problem list names every offending
item together with its failure reason. -/
theorem c9_validate_wrapping (items : List ItemSpec) :
    (validate_wrapping items = none ↔
      ∀ it ∈ items, (get_orientation_candidates it true).1 ≠ []) ∧
    (∀ it ∈ items, (get_orientation_candidates it true).1 = [] →
      (it.name ++ ": " ++ (get_orientation_candidates it true).2) ∈
        wrap_problems items ∧
      validate_wrapping items ≠ none) := by
  have hiff : wrap_problems items = [] ↔
      ∀ it ∈ items, (get_orientation_candidates it true).1 ≠ [] := by
    rw [wrap_problems, List.filterMap_eq_nil_iff]
    constructor
    · intro h it hit hc
      have := h it hit
      simp [hc] at this
    · intro h it hit
      simp [h it hit]
  constructor
  · rw [validate_wrapping]
    by_cases hp : wrap_problems items = []
    · simpa [hp] using hiff.mp hp
    · rw [if_neg hp]
      constructor
      · intro h
        exact absurd h (Option.some_ne_none _)
      · intro h
        exact absurd (hiff.mpr h) hp
  · intro it hit hc
    have hmem : (it.name ++ ": " ++ (get_orientation_candidates it true).2) ∈
        wrap_problems items := by
      rw [wrap_problems]
      exact List.mem_filterMap.mpr ⟨it, hit, by simp [hc]⟩
    refine ⟨hmem, ?_⟩
    rw [validate_wrapping]
    simp [List.ne_nil_of_mem hmem]

/-- Witness for C9: one offending item is reported with its reason. -/
theorem c9_validate_wrapping_witness :
    item300x60 ∈ [item300x60] ∧
    ((item300x60.name ++ ": " ++ (get_orientation_candidates item300x60 true).2) ∈
      wrap_problems [item300x60] ∧
    validate_wrapping [item300x60] ≠ none) :=
  ⟨List.mem_singleton.mpr rfl,
    (c9_validate_wrapping [item300x60]).2 item300x60 (List.mem_singleton.mpr rfl)
      (by with_unfolding_all decide)⟩

-- ===================================================================
-- C6 / C10 : material auto-assignment
-- ===================================================================

lemma minByFirst_spec (f : MaterialSpec → ℚ) (ms : List MaterialSpec) :
    ∀ m : MaterialSpec,
      (∃ pre post, m :: ms = pre ++ (minByFirst f m ms) :: post ∧
        ∀ x ∈ pre, f (minByFirst f m ms) < f x) ∧
      (∀ x ∈ m :: ms, f (minByFirst f m ms) ≤ f x) := by
  induction ms with
  | nil =>
    intro m
    refine ⟨⟨[], [], rfl, by simp⟩, ?_⟩
    intro x hx
    rw [List.mem_singleton.mp hx]
    exact le_refl _
  | cons x t ih =>
    intro m
    by_cases hx : f x < f m
    · have hm : minByFirst f m (x :: t) = minByFirst f x t := by
        simp [minByFirst, List.foldl_cons, hx]
      obtain ⟨⟨pre, post, hdec, hpre⟩, hmin⟩ := ih x
      have hminx : f (minByFirst f x t) ≤ f x :=
        hmin x (List.mem_cons_self x t)
      refine ⟨⟨m :: pre, post, ?_, ?_⟩, ?_⟩
      · rw [hm, List.cons_append, ← hdec]
      · intro y hy
        rcases List.mem_cons.mp hy with he | hmemy
        · rw [he, hm]
          exact lt_of_le_of_lt hminx hx
        · rw [hm]
          exact hpre y hmemy
      · intro y hy
        rw [hm]
        rcases List.mem_cons.mp hy with he | hmemy
        · rw [he]
          exact le_of_lt (lt_of_le_of_lt hminx hx)
        · exact hmin y hmemy
    · have hm : minByFirst f m (x :: t) = minByFirst f m t := by
        simp [minByFirst, List.foldl_cons, hx]
      obtain ⟨⟨pre, post, hdec, hpre⟩, hmin⟩ := ih m
      have hxm : f m ≤ f x := le_of_not_lt hx
      have hminm : f (minByFirst f m t) ≤ f m :=
        hmin m (List.mem_cons_self m t)
      refine ⟨?_, ?_⟩
      · cases pre with
        | nil =>
          simp only [List.nil_append] at hdec
          have hhead : m = minByFirst f m t := (List.cons.injEq _ _ _ _).mp hdec |>.1
          refine ⟨[], x :: t, ?_, by simp⟩
          rw [hm, List.nil_append, ← hhead]
        | cons p q =>
          simp only [List.cons_append] at hdec
          obtain ⟨hp, ht⟩ := (List.cons.injEq _ _ _ _).mp hdec
          have hfm : f (minByFirst f m t) < f m := by
            have := hpre p (List.mem_cons_self p q)
            rw [← hp] at this
            exact this
          refine ⟨m :: x :: q, post, ?_, ?_⟩
          · rw [hm, List.cons_append, List.cons_append, ← ht]
          · intro y hy
            rw [hm]
            rcases List.mem_cons.mp hy with he | hy2
            · rw [he]; exact hfm
            · rcases List.mem_cons.mp hy2 with he2 | hy3
              · rw [he2]; exact lt_of_lt_of_le hfm hxm
              · exact hpre y (List.mem_cons_of_mem _ hy3)
      · intro y hy
        rw [hm]
        rcases List.mem_cons.mp hy with he | hy2
        · rw [he]; exact hminm
        · rcases List.mem_cons.mp hy2 with he2 | hy3
          · rw [he2]; exact le_trans hminm hxm
          · exact hmin y (List.mem_cons_of_mem _ hy3)

lemma assignOne_pinned (mats : List MaterialSpec) (enforce : Bool) (it : ItemSpec)
    (h : it.material_key.isSome) : assignOne mats enforce it = some it := by
  simp [assignOne, h]

lemma assignOne_none_of_no_fit (mats : List MaterialSpec) (enforce : Bool)
    (it : ItemSpec) (hkey : it.material_key = none)
    (hfit : mats.filter (material_fits it enforce) = []) :
    assignOne mats enforce it = none := by
  simp [assignOne, hkey, hfit]

lemma assignOne_some_char (mats : List MaterialSpec) (enforce : Bool)
    (it : ItemSpec) (hkey : it.material_key = none)
    (hfit : mats.filter (material_fits it enforce) ≠ []) :
    ∃ chosen pre post,
      assignOne mats enforce it =
        some { it with material_key := some chosen.name } ∧
      mats.filter (material_fits it enforce) = pre ++ chosen :: post ∧
      (∀ m ∈ mats.filter (material_fits it enforce),
        cost_per_area chosen ≤ cost_per_area m) ∧
      (∀ m ∈ pre, cost_per_area chosen < cost_per_area m) := by
  obtain ⟨m, ms, hd⟩ := List.exists_cons_of_ne_nil hfit
  obtain ⟨⟨pre, post, hdec, hpre⟩, hmin⟩ := minByFirst_spec cost_per_area ms m
  refine ⟨minByFirst cost_per_area m ms, pre, post, ?_, ?_, ?_, hpre⟩
  · simp [assignOne, hkey, hd]
  · rw [hd]; exact hdec
  · intro m2 hm2
    rw [hd] at hm2
    exact hmin m2 hm2

lemma assignList_none_of_mem (mats : List MaterialSpec) (enforce : Bool) :
    ∀ (items : List ItemSpec) (it : ItemSpec), it ∈ items →
      assignOne mats enforce it = none → assignList mats enforce items = none := by
  intro items
  induction items with
  | nil =>
    intro it h
    simp at h
  | cons a rest ih =>
    intro it hmem hnone
    rcases List.mem_cons.mp hmem with he | hmemr
    · rw [← he] at *
      simp [assignList, hnone]
    · cases ha : assignOne mats enforce a with
      | none => simp [assignList, ha]
      | some a2 => simp [assignList, ha, ih it hmemr hnone]

lemma assignList_get (mats : List MaterialSpec) (enforce : Bool) :
    ∀ (items out : List ItemSpec), assignList mats enforce items = some out →
      out.length = items.length ∧
      ∀ (i : Nat) (a : ItemSpec), items[i]? = some a →
        ∃ b2, out[i]? = some b2 ∧ assignOne mats enforce a = some b2 := by
  intro items
  induction items with
  | nil =>
    intro out h
    simp [assignList] at h
    subst h
    refine ⟨rfl, ?_⟩
    intro i a h
    simp at h
  | cons a rest ih =>
    intro out h
    cases ha : assignOne mats enforce a with
    | none => simp [assignList, ha] at h
    | some a2 =>
      cases hr : assignList mats enforce rest with
      | none => simp [assignList, ha, hr] at h
      | some rest2 =>
        simp only [assignList, ha, hr] at h
        have hout : out = a2 :: rest2 := (Option.some.inj h).symm
        subst hout
        obtain ⟨hlen, hget⟩ := ih rest2 hr
        refine ⟨by simp [hlen], ?_⟩
        intro i a3 hi
        cases i with
        | zero =>
          simp only [List.getElem?_cons_zero] at hi ⊢
          exact ⟨a2, rfl, by rw [← Option.some.inj hi]; exact ha⟩
        | succ n =>
          simp only [List.getElem?_cons_succ] at hi ⊢
          exact hget n a3 hi

/-- C6: for an item with no pinned material key, auto-assignment fails when no
material has a fitting orientation candidate, and otherwise pins the item to
the first-encountered material of minimum cost per board area among the
fitting materials. -/
theorem c6_material_auto_assignment (items : List ItemSpec)
    (materials : List (String × MaterialSpec)) (enforce : Bool) (it : ItemSpec)
    (hmats : materials ≠ []) (hkey : it.material_key = none) :
    (it ∈ items →
      (materials.map Prod.snd).filter (material_fits it enforce) = [] →
      assign_any_items_to_materials items materials enforce = none) ∧
    (∀ (out : List ItemSpec) (i : Nat),
      assign_any_items_to_materials items materials enforce = some out →
      items[i]? = some it →
      ∃ chosen pre post,
        out[i]? = some { it with material_key := some chosen.name } ∧
        (materials.map Prod.snd).filter (material_fits it enforce) =
          pre ++ chosen :: post ∧
        (∀ m ∈ (materials.map Prod.snd).filter (material_fits it enforce),
          cost_per_area chosen ≤ cost_per_area m) ∧
        (∀ m ∈ pre, cost_per_area chosen < cost_per_area m)) := by
  constructor
  · intro hmem hfit
    rw [assign_any_items_to_materials, if_neg hmats]
    exact assignList_none_of_mem _ _ items it hmem
      (assignOne_none_of_no_fit _ _ _ hkey hfit)
  · intro out i hassign hi
    rw [assign_any_items_to_materials, if_neg hmats] at hassign
    obtain ⟨hlen, hget⟩ := assignList_get _ _ items out hassign
    obtain ⟨b2, hb2, hone⟩ := hget i it hi
    by_cases hfit : (materials.map Prod.snd).filter (material_fits it enforce) = []
    · rw [assignOne_none_of_no_fit _ _ _ hkey hfit] at hone
      exact absurd hone (by simp)
    · obtain ⟨chosen, pre, post, he, hdec, hmin, hpre⟩ :=
        assignOne_some_char _ enforce _ hkey hfit
      rw [he] at hone
      refine ⟨chosen, pre, post, ?_, hdec, hmin, hpre⟩
      rw [hb2, ← Option.some.inj hone]

/-- Item used in the C6 witness: 5000×5000 mm, fits no material. -/
def itemHuge : ItemSpec := ⟨"H", 5000, 5000, 1, false, 0, 0, 0, 0, none⟩

/-- Material list used in the C6 witness. -/
def materialsSmall : List (String × MaterialSpec) := [("A", ⟨"A", 100, 100, 50⟩)]

/-- Witness for C6: the huge item fits no material and assignment fails. -/
theorem c6_material_auto_assignment_witness :
    materialsSmall ≠ [] ∧ itemHuge.material_key = none ∧
    assign_any_items_to_materials [itemHuge] materialsSmall true = none :=
  ⟨by with_unfolding_all decide, rfl,
    (c6_material_auto_assignment [itemHuge] materialsSmall true itemHuge
      (by with_unfolding_all decide) rfl).1 (List.mem_singleton.mpr rfl)
      (by with_unfolding_all decide)⟩

/-- C10: auto-assignment only ever changes the `material_key` field, and only
of items whose key is `none`; pinned items are returned unchanged and every
other field of every item is preserved (the materials list is not returned,
so it cannot be changed). -/
theorem c10_assignment_frame (items : List ItemSpec)
    (materials : List (String × MaterialSpec)) (enforce : Bool)
    (out : List ItemSpec)
    (h : assign_any_items_to_materials items materials enforce = some out) :
    out.length = items.length ∧
    ∀ (i : Nat) (a b2 : ItemSpec), items[i]? = some a → out[i]? = some b2 →
      (a.material_key.isSome → b2 = a) ∧
      b2.name = a.name ∧ b2.length_mm = a.length_mm ∧ b2.width_mm = a.width_mm ∧
      b2.quantity = a.quantity ∧ b2.rotation_allowed = a.rotation_allowed ∧
      b2.wrap_l = a.wrap_l ∧ b2.wrap_r = a.wrap_r ∧ b2.wrap_t = a.wrap_t ∧
      b2.wrap_b = a.wrap_b := by
  rw [assign_any_items_to_materials] at h
  by_cases hmats : materials = []
  · rw [if_pos hmats] at h
    exact absurd h (by simp)
  · rw [if_neg hmats] at h
    obtain ⟨hlen, hget⟩ := assignList_get _ _ items out h
    refine ⟨hlen, ?_⟩
    intro i a b2 hia hib
    obtain ⟨b3, hb3, hone⟩ := hget i a hia
    have hbb : b2 = b3 := by
      rw [hb3] at hib
      exact (Option.some.inj hib).symm
    by_cases hk : a.material_key.isSome
    · have h3 : b3 = a := by
        rw [assignOne_pinned _ _ _ hk] at hone
        exact (Option.some.inj hone).symm
      rw [hbb, h3]
      simp
    · have hkey : a.material_key = none := Option.not_isSome_iff_eq_none.mp hk
      by_cases hfit : (materials.map Prod.snd).filter (material_fits a enforce) = []
      · rw [assignOne_none_of_no_fit _ _ _ hkey hfit] at hone
        exact absurd hone (by simp)
      · obtain ⟨chosen, pre, post, he, _, _, _⟩ :=
          assignOne_some_char _ enforce _ hkey hfit
        have h3 : b3 = { a with material_key := some chosen.name } := by
          rw [he] at hone
          exact (Option.some.inj hone).symm
        rw [hbb, h3]
        refine ⟨fun hcontra => absurd hcontra (by simp [hkey]), ?_⟩
        simp

/-- Witness for C10 on a concrete pinned/unpinned item pair. -/
theorem c10_assignment_frame_witness :
    assign_any_items_to_materials
      [⟨"P", 10, 10, 1, false, 0, 0, 0, 0, some "A"⟩,
       ⟨"Q", 10, 10, 1, false, 0, 0, 0, 0, none⟩]
      [("A", ⟨"A", 100, 100, 50⟩)] true =
      some [⟨"P", 10, 10, 1, false, 0, 0, 0, 0, some "A"⟩,
        ⟨"Q", 10, 10, 1, false, 0, 0, 0, 0, some "A"⟩] ∧
    ([⟨"P", 10, 10, 1, false, 0, 0, 0, 0, some "A"⟩,
        ⟨"Q", 10, 10, 1, false, 0, 0, 0, 0, some "A"⟩] : List ItemSpec).length =
      ([⟨"P", 10, 10, 1, false, 0, 0, 0, 0, some "A"⟩,
        ⟨"Q", 10, 10, 1, false, 0, 0, 0, 0, none⟩] : List ItemSpec).length :=
  ⟨by with_unfolding_all decide,
    (c10_assignment_frame _ [("A", ⟨"A", 100, 100, 50⟩)] true _
      (by with_unfolding_all decide)).1⟩

-- ===================================================================
-- C1 : placement search order
-- ===================================================================

/-- Pure acceptance test of `try_place_on_row` (packing.py): the candidate
height equals the row height and the row has enough remaining horizontal
space. -/
def rowAccepts (kerf w h : ℚ) (row : RowLayout) : Bool :=
  decide (h = row.h_mm) &&
    decide (row.x_cursor + (w + (if row.items.isEmpty then 0 else kerf)) ≤
      row.board_width_mm)

lemma tryPlaceOnRow_isSome_iff (row : RowLayout) (item : ItemSpec) (kerf : ℚ)
    (mn : String) (bi : Nat) (w h : ℚ) (rot : Bool) :
    (tryPlaceOnRow row item kerf mn bi w h rot).isSome = rowAccepts kerf w h row := by
  simp only [tryPlaceOnRow, rowAccepts]
  split_ifs with h1 h2 h3 <;>
    simp_all [not_lt]

lemma tryPlaceOnRowAt_none_oob (b : BoardLayout) (i : Nat) (item : ItemSpec)
    (w h : ℚ) (rot : Bool) (hrow : b.rows[i]? = none) :
    tryPlaceOnRowAt b i item w h rot = none := by
  rw [tryPlaceOnRowAt, hrow]

lemma tryPlaceOnRowAt_isSome_eq (b : BoardLayout) (i : Nat) (item : ItemSpec)
    (w h : ℚ) (rot : Bool) (row : RowLayout) (hrow : b.rows[i]? = some row) :
    (tryPlaceOnRowAt b i item w h rot).isSome = rowAccepts b.kerf w h row := by
  have hiff := tryPlaceOnRow_isSome_iff row item b.kerf b.material.name b.index w h rot
  cases htp : tryPlaceOnRow row item b.kerf b.material.name b.index w h rot with
  | none =>
    rw [htp] at hiff
    simp only [tryPlaceOnRowAt, hrow, htp]
    simpa using hiff
  | some v =>
    rw [htp] at hiff
    obtain ⟨row2, kro, p⟩ := v
    simp only [tryPlaceOnRowAt, hrow, htp]
    simpa using hiff

lemma tryPlaceOnRowAt_rows_length (b : BoardLayout) (i : Nat) (item : ItemSpec)
    (w h : ℚ) (rot : Bool) (b2 : BoardLayout)
    (hp : tryPlaceOnRowAt b i item w h rot = some b2) :
    b2.rows.length = b.rows.length := by
  cases hrow : b.rows[i]? with
  | none => simp [tryPlaceOnRowAt, hrow] at hp
  | some row =>
    cases htp : tryPlaceOnRow row item b.kerf b.material.name b.index w h rot with
    | none => simp [tryPlaceOnRowAt, hrow, htp] at hp
    | some v =>
      obtain ⟨row2, kro, p⟩ := v
      simp only [tryPlaceOnRowAt, hrow, htp, Option.some.injEq] at hp
      rw [← hp]
      simp

lemma tryRowsGo_none (item : ItemSpec) (w h : ℚ) (rot : Bool) (b : BoardLayout) :
    ∀ is2 : List Nat, (∀ i ∈ is2, tryPlaceOnRowAt b i item w h rot = none) →
      tryRowsGo item w h rot b is2 = none := by
  intro is2
  induction is2 with
  | nil => intro _; rfl
  | cons i rest ih =>
    intro hall
    rw [tryRowsGo, hall i (List.mem_cons_self i rest)]
    exact ih (fun j hj => hall j (List.mem_cons_of_mem i hj))

lemma tryRowsGo_skip (item : ItemSpec) (w h : ℚ) (rot : Bool) (b : BoardLayout) :
    ∀ l1 l2 : List Nat, (∀ i ∈ l1, tryPlaceOnRowAt b i item w h rot = none) →
      tryRowsGo item w h rot b (l1 ++ l2) = tryRowsGo item w h rot b l2 := by
  intro l1
  induction l1 with
  | nil => intro l2 _; rfl
  | cons i rest ih =>
    intro l2 hall
    rw [List.cons_append, tryRowsGo, hall i (List.mem_cons_self i rest)]
    exact ih l2 (fun j hj => hall j (List.mem_cons_of_mem i hj))

lemma startNewRow_shape (b : BoardLayout) (h : ℚ) :
    ∃ y0, (startNewRow b h).1.rows = b.rows ++ [⟨y0, h, b.material.width_mm, [], 0⟩] ∧
      (startNewRow b h).2 = b.rows.length ∧
      (startNewRow b h).1.kerf = b.kerf ∧
      (startNewRow b h).1.material = b.material ∧
      (startNewRow b h).1.placed_items = b.placed_items := by
  cases hg : b.rows.getLast? with
  | none =>
    refine ⟨0, ?_, ?_, ?_, ?_, ?_⟩ <;> simp [startNewRow, hg]
  | some prev =>
    refine ⟨prev.y_mm + prev.h_mm + b.kerf, ?_, ?_, ?_, ?_, ?_⟩ <;>
      simp [startNewRow, hg]

/-- C1 amended: the source search order.  (A) for one candidate on one board
the first accepting existing row (top to bottom) wins; (B) if no existing row
accepts the candidate but its height fits below the last row and its width
fits the board, a new row is opened on that same board with that same
candidate immediately — before any later candidate is considered; (C) a
candidate is passed over only when no row accepts it and the vertical fit
check fails; (D) the first board (in creation order) that accepts ends the
search, leaving later boards untouched; (E) a new board is opened only when
no open board accepted the unit. -/
theorem c1_amended_search_order (mat : MaterialSpec) (kerf : ℚ) (item : ItemSpec)
    (b : BoardLayout) (w h : ℚ) (rot : Bool) (rest cands : List (ℚ × ℚ × Bool))
    (boards bs : List BoardLayout) :
    (∀ (i : Nat) (row : RowLayout), b.rows[i]? = some row →
      rowAccepts b.kerf w h row = true →
      (∀ (j : Nat) (row2 : RowLayout), j < i → b.rows[j]? = some row2 →
        rowAccepts b.kerf w h row2 = false) →
      ∃ b2, tryPlaceOnRowAt b i item w h rot = some b2 ∧
        tryBoardWithCands mat item b ((w, h, rot) :: rest) = (b2, true)) ∧
    ((∀ (j : Nat) (row2 : RowLayout), b.rows[j]? = some row2 →
      rowAccepts b.kerf w h row2 = false) →
      b.used_length_mm + (if b.rows.isEmpty then 0 else b.kerf) + h ≤ mat.length_mm →
      w ≤ b.material.width_mm →
      ∃ b2, tryBoardWithCands mat item b ((w, h, rot) :: rest) = (b2, true) ∧
        b2.rows.length = b.rows.length + 1) ∧
    ((∀ (j : Nat) (row2 : RowLayout), b.rows[j]? = some row2 →
      rowAccepts b.kerf w h row2 = false) →
      ¬(b.used_length_mm + (if b.rows.isEmpty then 0 else b.kerf) + h ≤
        mat.length_mm) →
      tryBoardWithCands mat item b ((w, h, rot) :: rest) =
        tryBoardWithCands mat item b rest) ∧
    (∀ b2, tryBoardWithCands mat item b cands = (b2, true) →
      tryBoards mat item cands (b :: bs) = (b2 :: bs, true)) ∧
    (∀ enforce : Bool, (get_orientation_candidates item enforce).1 ≠ [] →
      (tryBoards mat item (get_orientation_candidates item enforce).1 boards).2 =
        true →
      placeUnit mat kerf enforce boards item =
        some (tryBoards mat item
          (get_orientation_candidates item enforce).1 boards).1) := by
  have hfail_all : ∀ (hall : ∀ (j : Nat) (row2 : RowLayout), b.rows[j]? = some row2 →
      rowAccepts b.kerf w h row2 = false),
      tryRows b item w h rot = none := by
    intro hall
    apply tryRowsGo_none
    intro i hi
    cases hrow : b.rows[i]? with
    | none => exact tryPlaceOnRowAt_none_oob b i item w h rot hrow
    | some row =>
      have := tryPlaceOnRowAt_isSome_eq b i item w h rot row hrow
      rw [hall i row hrow] at this
      exact Option.not_isSome_iff_eq_none.mp (by rw [this]; simp)
  refine ⟨?_, ?_, ?_, ?_, ?_⟩
  · -- (A)
    intro i row hrow hacc hbefore
    have hi : i < b.rows.length := by
      by_contra hc
      rw [List.getElem?_eq_none (le_of_not_lt hc)] at hrow
      exact absurd hrow (by simp)
    have hsome : (tryPlaceOnRowAt b i item w h rot).isSome = true := by
      rw [tryPlaceOnRowAt_isSome_eq b i item w h rot row hrow, hacc]
    obtain ⟨b2, hb2⟩ := Option.isSome_iff_exists.mp hsome
    refine ⟨b2, hb2, ?_⟩
    have hrange : List.range b.rows.length =
        List.range i ++ ((List.range (b.rows.length - i - 1 + 1)).map
          (fun j => i + j)) := by
      rw [← List.range_add]
      congr 1
      omega
    have htr : tryRows b item w h rot = some b2 := by
      rw [tryRows, hrange, tryRowsGo_skip]
      · rw [List.range_succ_eq_map]
        simp only [List.map_cons, Nat.add_zero]
        rw [tryRowsGo, hb2]
      · intro j hj
        have hjlt : j < i := List.mem_range.mp hj
        cases hrowj : b.rows[j]? with
        | none => exact tryPlaceOnRowAt_none_oob b j item w h rot hrowj
        | some rowj =>
          have := tryPlaceOnRowAt_isSome_eq b j item w h rot rowj hrowj
          rw [hbefore j rowj hjlt hrowj] at this
          exact Option.not_isSome_iff_eq_none.mp (by rw [this]; simp)
    simp [tryBoardWithCands, htr]
  · -- (B)
    intro hall hheight hw
    have htr := hfail_all hall
    obtain ⟨y0, hrows, hidx, hkerf, hmatb, _⟩ := startNewRow_shape b h
    have hfresh : (startNewRow b h).1.rows[(startNewRow b h).2]? =
        some ⟨y0, h, b.material.width_mm, [], 0⟩ := by
      rw [hrows, hidx]
      exact List.getElem?_concat_length b.rows _
    have hacc : rowAccepts (startNewRow b h).1.kerf w h
        ⟨y0, h, b.material.width_mm, [], 0⟩ = true := by
      simp [rowAccepts, hw]
    have hsome : (tryPlaceOnRowAt (startNewRow b h).1 (startNewRow b h).2 item
        w h rot).isSome = true := by
      rw [tryPlaceOnRowAt_isSome_eq _ _ item w h rot _ hfresh, hacc]
    obtain ⟨b2, hb2⟩ := Option.isSome_iff_exists.mp hsome
    refine ⟨b2, ?_, ?_⟩
    · rw [tryBoardWithCands]
      simp only [htr, if_pos hheight, hb2]
    · rw [tryPlaceOnRowAt_rows_length _ _ item w h rot b2 hb2, hrows]
      simp
  · -- (C)
    intro hall hheight
    have htr := hfail_all hall
    rw [tryBoardWithCands]
    simp only [htr, if_neg hheight]
  · -- (D)
    intro b2 hb2
    simp [tryBoards, hb2]
  · -- (E)
    intro enforce hne hp
    simp [placeUnit, hne, hp]

/-- Material of the C1 counterexample: 1000×1000 mm. -/
def matC1 : MaterialSpec := ⟨"M", 1000, 1000, 100⟩

/-- First C1 item: 300 long × 500 wide, no rotation. -/
def itC1a : ItemSpec := ⟨"A", 300, 500, 1, false, 0, 0, 0, 0, some "M"⟩

/-- Second C1 item: 400 long × 300 wide, rotation allowed. -/
def itC1b : ItemSpec := ⟨"B", 400, 300, 1, true, 0, 0, 0, 0, some "M"⟩

/-- C1 counterexample: packing the 300×500 item and then the 400×300
rotatable item (kerf 0) on 1000×1000 boards, the source opens a second row
for the second unit's first candidate (300 wide × 400 high), although the
second candidate (400 wide × 300 high, rotated) is accepted by the existing
row — so the claimed order (all existing rows on all boards for all
candidates before any new-row attempt) produces a different layout (one row
of two items) than the code (two rows). -/
theorem c1_search_order_counterexample :
    build_boards_for_material matC1 [itC1a, itC1b] 0 true ≠
      build_boards_spec_order matC1 [itC1a, itC1b] 0 true ∧
    (build_boards_for_material matC1 [itC1a, itC1b] 0 true).map
      (fun bs => bs.map (fun b => b.rows.length)) = some [2] ∧
    (build_boards_spec_order matC1 [itC1a, itC1b] 0 true).map
      (fun bs => bs.map (fun b => b.rows.length)) = some [1] := by
  refine ⟨?_, ?_, ?_⟩
  · with_unfolding_all decide
  · with_unfolding_all decide
  · with_unfolding_all decide

/-- Witness for the amended C1 order at a concrete board: on an empty board
the first candidate (300 wide, 400 high) opens a new row at once, even though
a later candidate is still pending. -/
theorem c1_amended_search_order_witness :
    ((BoardLayout.mk matC1 0 0 [] [] []).used_length_mm +
      (if (BoardLayout.mk matC1 0 0 [] [] []).rows.isEmpty then 0
        else (BoardLayout.mk matC1 0 0 [] [] []).kerf) + 400 ≤
      matC1.length_mm) ∧
    (∃ b2, tryBoardWithCands matC1 itC1b (BoardLayout.mk matC1 0 0 [] [] [])
        [(300, 400, false), (400, 300, true)] = (b2, true) ∧
      b2.rows.length = (BoardLayout.mk matC1 0 0 [] [] []).rows.length + 1) :=
  ⟨by with_unfolding_all decide,
    (c1_amended_search_order matC1 0 itC1b (BoardLayout.mk matC1 0 0 [] [] [])
        300 400 false [(400, 300, true)] [] [] []).2.1
      (by intro j row2 hj; simp at hj)
      (by with_unfolding_all decide)
      (by with_unfolding_all decide)⟩

-- ===================================================================
-- C2 : all placements stay within the board
-- ===================================================================

/-- Row-level invariant: the row band lies inside the board and the cursor is
nonnegative. -/
def RowInv (mat : MaterialSpec) (r : RowLayout) : Prop :=
  0 ≤ r.y_mm ∧ 0 ≤ r.h_mm ∧ r.y_mm + r.h_mm ≤ mat.length_mm ∧
  r.board_width_mm = mat.width_mm ∧ 0 ≤ r.x_cursor

/-- A placed item lies entirely within the material's board rectangle. -/
def ItemInBounds (mat : MaterialSpec) (p : PlacedItem) : Prop :=
  0 ≤ p.x_mm ∧ p.x_mm + p.width_mm ≤ mat.width_mm ∧
  0 ≤ p.y_mm ∧ p.y_mm + p.height_mm ≤ mat.length_mm

/-- Board-level invariant maintained by the packer. -/
def BoardInv (mat : MaterialSpec) (kerf : ℚ) (b : BoardLayout) : Prop :=
  b.material = mat ∧ b.kerf = kerf ∧
  (∀ r ∈ b.rows, RowInv mat r) ∧
  (∀ p ∈ b.placed_items, ItemInBounds mat p)

lemma mem_of_getLast?_eq {α : Type} :
    ∀ (l : List α) (a : α), l.getLast? = some a → a ∈ l := by
  intro l
  induction l with
  | nil =>
    intro a h
    simp at h
  | cons x xs ih =>
    intro a h
    cases xs with
    | nil =>
      simp at h
      rw [h]
      simp
    | cons y ys =>
      rw [List.getLast?_cons_cons] at h
      exact List.mem_cons_of_mem _ (ih a h)

lemma eq_nil_of_getLast?_none {α : Type} :
    ∀ l : List α, l.getLast? = none → l = [] := by
  intro l h
  cases l with
  | nil => rfl
  | cons x xs =>
    cases xs with
    | nil => simp at h
    | cons y ys => rw [List.getLast?_cons_cons] at h
                   exact absurd h (by cases hg : (y :: ys).getLast? <;> simp_all)

lemma used_length_of_getLast?_none (b : BoardLayout) (h : b.rows.getLast? = none) :
    b.used_length_mm = 0 := by
  simp [BoardLayout.used_length_mm, h]

lemma used_length_of_getLast?_some (b : BoardLayout) (prev : RowLayout)
    (h : b.rows.getLast? = some prev) :
    b.used_length_mm = prev.y_mm + prev.h_mm := by
  simp [BoardLayout.used_length_mm, h]

lemma tryPlaceOnRow_inv (mat : MaterialSpec) (kerf : ℚ) (row : RowLayout)
    (item : ItemSpec) (mn : String) (bi : Nat) (w h : ℚ) (rot : Bool)
    (row2 : RowLayout) (kro : Option CutRect) (p : PlacedItem)
    (hkerf : 0 ≤ kerf) (hrow : RowInv mat row) (hw : 0 ≤ w)
    (hp : tryPlaceOnRow row item kerf mn bi w h rot = some (row2, kro, p)) :
    RowInv mat row2 ∧ ItemInBounds mat p := by
  obtain ⟨hy, hh, hyh, hbw, hxc⟩ := hrow
  have heq : h = row.h_mm ∨ h ≠ row.h_mm := em _
  simp only [tryPlaceOnRow] at hp
  split_ifs at hp with h1 hemp hgt hgt2
  · simp only [Option.some.injEq, Prod.mk.injEq] at hp
    obtain ⟨hrow2, hkro, hpe⟩ := hp
    have hfit : row.x_cursor + (w + 0) ≤ row.board_width_mm := le_of_not_lt hgt
    have hhrow : h = row.h_mm := of_not_not h1
    constructor
    · rw [← hrow2]
      refine ⟨hy, hh, hyh, hbw, ?_⟩
      show 0 ≤ row.x_cursor + w
      linarith
    · rw [← hpe]
      refine ⟨hxc, ?_, hy, ?_⟩
      · show row.x_cursor + w ≤ mat.width_mm
        rw [← hbw]
        linarith
      · show row.y_mm + h ≤ mat.length_mm
        rw [hhrow]
        exact hyh
  · simp only [Option.some.injEq, Prod.mk.injEq] at hp
    obtain ⟨hrow2, hkro, hpe⟩ := hp
    have hfit : row.x_cursor + (w + kerf) ≤ row.board_width_mm := le_of_not_lt hgt2
    have hhrow : h = row.h_mm := of_not_not h1
    constructor
    · rw [← hrow2]
      refine ⟨hy, hh, hyh, hbw, ?_⟩
      show 0 ≤ row.x_cursor + kerf + w
      linarith
    · rw [← hpe]
      refine ⟨?_, ?_, hy, ?_⟩
      · show 0 ≤ row.x_cursor + kerf
        linarith
      · show row.x_cursor + kerf + w ≤ mat.width_mm
        rw [← hbw]
        linarith
      · show row.y_mm + h ≤ mat.length_mm
        rw [hhrow]
        exact hyh

lemma tryPlaceOnRowAt_inv (mat : MaterialSpec) (kerf : ℚ) (b : BoardLayout)
    (i : Nat) (item : ItemSpec) (w h : ℚ) (rot : Bool) (b2 : BoardLayout)
    (hkerf : 0 ≤ kerf) (hinv : BoardInv mat kerf b) (hw : 0 ≤ w)
    (hp : tryPlaceOnRowAt b i item w h rot = some b2) :
    BoardInv mat kerf b2 := by
  obtain ⟨hmatb, hkerfb, hrows, hitems⟩ := hinv
  cases hrow : b.rows[i]? with
  | none => simp [tryPlaceOnRowAt, hrow] at hp
  | some row =>
    cases htp : tryPlaceOnRow row item b.kerf b.material.name b.index w h rot with
    | none => simp [tryPlaceOnRowAt, hrow, htp] at hp
    | some v =>
      obtain ⟨row2, kro, pnew⟩ := v
      have hrmem : row ∈ b.rows := by
        have := List.getElem?_eq_some_iff.mp hrow
        obtain ⟨hlt, hget⟩ := this
        rw [← hget]
        exact List.getElem_mem hlt
      obtain ⟨hrow2inv, hpinv⟩ := tryPlaceOnRow_inv mat b.kerf row item
        b.material.name b.index w h rot row2 kro pnew
        (hkerfb ▸ hkerf) (hrows row hrmem) hw htp
      simp only [tryPlaceOnRowAt, hrow, htp, Option.some.injEq] at hp
      rw [← hp]
      refine ⟨hmatb, hkerfb, ?_, ?_⟩
      · intro r hr
        rcases List.mem_or_eq_of_mem_set hr with hmem | heq
        · exact hrows r hmem
        · rw [heq]
          exact hrow2inv
      · intro q hq
        rcases List.mem_append.mp hq with hmem | hnew
        · exact hitems q hmem
        · rw [List.mem_singleton.mp hnew]
          exact hpinv

lemma startNewRow_inv (mat : MaterialSpec) (kerf : ℚ) (b : BoardLayout) (h : ℚ)
    (hkerf : 0 ≤ kerf) (hinv : BoardInv mat kerf b) (hh : 0 ≤ h)
    (hfit : b.used_length_mm + (if b.rows.isEmpty then 0 else b.kerf) + h ≤
      mat.length_mm) :
    BoardInv mat kerf (startNewRow b h).1 := by
  obtain ⟨hmatb, hkerfb, hrows, hitems⟩ := hinv
  cases hg : b.rows.getLast? with
  | none =>
    have hnil : b.rows = [] := eq_nil_of_getLast?_none b.rows hg
    have hused : b.used_length_mm = 0 := used_length_of_getLast?_none b hg
    have hfit2 : h ≤ mat.length_mm := by
      rw [hused, hnil] at hfit
      simpa using hfit
    simp only [startNewRow, hg]
    refine ⟨hmatb, hkerfb, ?_, hitems⟩
    intro r hr
    rcases List.mem_append.mp hr with hmem | hnew
    · exact hrows r hmem
    · rw [List.mem_singleton.mp hnew]
      exact ⟨le_refl 0, hh, by simpa using hfit2, by rw [hmatb], le_refl 0⟩
  | some prev =>
    have hprevinv := hrows prev (mem_of_getLast?_eq b.rows prev hg)
    have hne : b.rows ≠ [] := by
      intro hc
      rw [hc] at hg
      simp at hg
    have hused : b.used_length_mm = prev.y_mm + prev.h_mm :=
      used_length_of_getLast?_some b prev hg
    have hie : b.rows.isEmpty = false := by
      cases hb : b.rows with
      | nil => exact absurd hb hne
      | cons x xs => rfl
    have hfit2 : prev.y_mm + prev.h_mm + b.kerf + h ≤ mat.length_mm := by
      rw [hused, hie] at hfit
      simpa using hfit
    have hkb : 0 ≤ b.kerf := hkerfb ▸ hkerf
    simp only [startNewRow, hg]
    refine ⟨hmatb, hkerfb, ?_, hitems⟩
    intro r hr
    rcases List.mem_append.mp hr with hmem | hnew
    · exact hrows r hmem
    · rw [List.mem_singleton.mp hnew]
      refine ⟨?_, hh, ?_, by rw [hmatb], le_refl 0⟩
      · show 0 ≤ prev.y_mm + prev.h_mm + b.kerf
        have h1 := hprevinv.1
        have h2 := hprevinv.2.1
        linarith
      · show prev.y_mm + prev.h_mm + b.kerf + h ≤ mat.length_mm
        exact hfit2

lemma cand_shape (item : ItemSpec) (enforce : Bool) :
    ∀ c ∈ (get_orientation_candidates item enforce).1,
      (c.1 = item.width_mm ∧ c.2.1 = item.length_mm) ∨
      (c.1 = item.length_mm ∧ c.2.1 = item.width_mm) := by
  intro c hc
  simp only [get_orientation_candidates] at hc
  split_ifs at hc <;>
    simp only [List.mem_append, List.mem_singleton, List.not_mem_nil,
      false_or, or_false] at hc <;>
    first
    | exact absurd hc not_false
    | (rcases hc with hc | hc <;> rw [hc] <;> simp)
    | (rw [hc]; simp)

lemma cand_nonneg (item : ItemSpec) (enforce : Bool)
    (hl : 0 ≤ item.length_mm) (hw : 0 ≤ item.width_mm) :
    ∀ c ∈ (get_orientation_candidates item enforce).1, 0 ≤ c.1 ∧ 0 ≤ c.2.1 := by
  intro c hc
  rcases cand_shape item enforce c hc with ⟨h1, h2⟩ | ⟨h1, h2⟩ <;>
    rw [h1, h2] <;> exact ⟨by assumption, by assumption⟩

lemma tryRowsGo_some (item : ItemSpec) (w h : ℚ) (rot : Bool) (b : BoardLayout) :
    ∀ (is2 : List Nat) (b2 : BoardLayout),
      tryRowsGo item w h rot b is2 = some b2 →
      ∃ i ∈ is2, tryPlaceOnRowAt b i item w h rot = some b2 := by
  intro is2
  induction is2 with
  | nil =>
    intro b2 hp
    simp [tryRowsGo] at hp
  | cons i rest ih =>
    intro b2 hp
    rw [tryRowsGo] at hp
    cases hi : tryPlaceOnRowAt b i item w h rot with
    | some b3 =>
      rw [hi] at hp
      exact ⟨i, List.mem_cons_self i rest, by rw [hi, Option.some.inj hp]⟩
    | none =>
      rw [hi] at hp
      obtain ⟨j, hj, hjp⟩ := ih b2 hp
      exact ⟨j, List.mem_cons_of_mem i hj, hjp⟩

lemma tryRows_inv (mat : MaterialSpec) (kerf : ℚ) (b : BoardLayout)
    (item : ItemSpec) (w h : ℚ) (rot : Bool) (b2 : BoardLayout)
    (hkerf : 0 ≤ kerf) (hinv : BoardInv mat kerf b) (hw : 0 ≤ w)
    (hp : tryRows b item w h rot = some b2) : BoardInv mat kerf b2 := by
  obtain ⟨i, _, hip⟩ := tryRowsGo_some item w h rot b _ b2 hp
  exact tryPlaceOnRowAt_inv mat kerf b i item w h rot b2 hkerf hinv hw hip

lemma tryBoardWithCands_inv (mat : MaterialSpec) (kerf : ℚ) (item : ItemSpec) :
    ∀ (cands : List (ℚ × ℚ × Bool)) (b : BoardLayout),
      0 ≤ kerf → BoardInv mat kerf b →
      (∀ c ∈ cands, 0 ≤ c.1 ∧ 0 ≤ c.2.1) →
      BoardInv mat kerf (tryBoardWithCands mat item b cands).1 := by
  intro cands
  induction cands with
  | nil =>
    intro b hk hb _
    exact hb
  | cons c rest ih =>
    obtain ⟨w, h, rot⟩ := c
    intro b hk hb hc
    have hw : 0 ≤ w := (hc (w, h, rot) (by simp)).1
    have hh : 0 ≤ h := (hc (w, h, rot) (by simp)).2
    have hrest : ∀ c2 ∈ rest, 0 ≤ c2.1 ∧ 0 ≤ c2.2.1 :=
      fun c2 hc2 => hc c2 (List.mem_cons_of_mem _ hc2)
    rw [tryBoardWithCands]
    cases htr : tryRows b item w h rot with
    | some b2 =>
      simp only [htr]
      exact tryRows_inv mat kerf b item w h rot b2 hk hb hw htr
    | none =>
      simp only [htr]
      by_cases hfit : b.used_length_mm + (if b.rows.isEmpty then 0 else b.kerf) +
          h ≤ mat.length_mm
      · rw [if_pos hfit]
        have hb1 := startNewRow_inv mat kerf b h hk hb hh hfit
        cases hpl : tryPlaceOnRowAt (startNewRow b h).1 (startNewRow b h).2
            item w h rot with
        | some b2 =>
          simp only [hpl]
          exact tryPlaceOnRowAt_inv mat kerf _ _ item w h rot b2 hk hb1 hw hpl
        | none =>
          simp only [hpl]
          exact ih (startNewRow b h).1 hk hb1 hrest
      · rw [if_neg hfit]
        exact ih b hk hb hrest

lemma tryBoards_inv (mat : MaterialSpec) (kerf : ℚ) (item : ItemSpec)
    (cands : List (ℚ × ℚ × Bool)) (hcands : ∀ c ∈ cands, 0 ≤ c.1 ∧ 0 ≤ c.2.1)
    (hk : 0 ≤ kerf) :
    ∀ boards : List BoardLayout, (∀ b ∈ boards, BoardInv mat kerf b) →
      ∀ b2 ∈ (tryBoards mat item cands boards).1, BoardInv mat kerf b2 := by
  intro boards
  induction boards with
  | nil =>
    intro _ b2 hb2
    simp [tryBoards] at hb2
  | cons b bs ih =>
    intro hall b2 hb2
    rw [tryBoards] at hb2
    by_cases hr2 : (tryBoardWithCands mat item b cands).2
    · simp only [hr2, if_true] at hb2
      rcases List.mem_cons.mp hb2 with he | hmem
      · rw [he]
        exact tryBoardWithCands_inv mat kerf item cands b hk
          (hall b (List.mem_cons_self b bs)) hcands
      · exact hall b2 (List.mem_cons_of_mem b hmem)
    · simp only [hr2, if_false, Bool.false_eq_true] at hb2
      rcases List.mem_cons.mp hb2 with he | hmem
      · rw [he]
        exact tryBoardWithCands_inv mat kerf item cands b hk
          (hall b (List.mem_cons_self b bs)) hcands
      · exact ih (fun b3 hb3 => hall b3 (List.mem_cons_of_mem b hb3)) b2 hmem

lemma newBoardPlace_inv (mat : MaterialSpec) (kerf : ℚ) (idx : Nat)
    (item : ItemSpec) (hk : 0 ≤ kerf) :
    ∀ (cands : List (ℚ × ℚ × Bool)) (nb : BoardLayout),
      (∀ c ∈ cands, 0 ≤ c.1 ∧ 0 ≤ c.2.1) →
      newBoardPlace mat kerf idx item cands = some nb →
      BoardInv mat kerf nb := by
  intro cands
  induction cands with
  | nil =>
    intro nb _ hp
    simp [newBoardPlace] at hp
  | cons c rest ih =>
    obtain ⟨w, h, rot⟩ := c
    intro nb hc hp
    have hw : 0 ≤ w := (hc (w, h, rot) (by simp)).1
    have hh : 0 ≤ h := (hc (w, h, rot) (by simp)).2
    rw [newBoardPlace] at hp
    by_cases hfit : w ≤ mat.width_mm ∧ h ≤ mat.length_mm
    · rw [if_pos hfit] at hp
      have hempty : BoardInv mat kerf ⟨mat, idx, kerf, [], [], []⟩ :=
        ⟨rfl, rfl, by simp, by simp⟩
      have hb1 := startNewRow_inv mat kerf ⟨mat, idx, kerf, [], [], []⟩ h hk
        hempty hh (by simpa [BoardLayout.used_length_mm] using hfit.2)
      cases hpl : tryPlaceOnRowAt (startNewRow ⟨mat, idx, kerf, [], [], []⟩ h).1
          (startNewRow ⟨mat, idx, kerf, [], [], []⟩ h).2 item w h rot with
      | some b2 =>
        simp only [hpl, Option.some.injEq] at hp
        rw [← hp]
        exact tryPlaceOnRowAt_inv mat kerf _ _ item w h rot b2 hk hb1 hw hpl
      | none =>
        simp only [hpl, Option.some.injEq] at hp
        rw [← hp]
        exact hb1
    · rw [if_neg hfit] at hp
      exact ih nb (fun c2 hc2 => hc c2 (List.mem_cons_of_mem _ hc2)) hp

lemma placeUnit_inv (mat : MaterialSpec) (kerf : ℚ) (enforce : Bool)
    (boards : List BoardLayout) (item : ItemSpec) (boards2 : List BoardLayout)
    (hk : 0 ≤ kerf) (hb : ∀ b ∈ boards, BoardInv mat kerf b)
    (hl : 0 ≤ item.length_mm) (hwid : 0 ≤ item.width_mm)
    (hp : placeUnit mat kerf enforce boards item = some boards2) :
    ∀ b ∈ boards2, BoardInv mat kerf b := by
  have hcands := cand_nonneg item enforce hl hwid
  rw [placeUnit] at hp
  by_cases hce : (get_orientation_candidates item enforce).1 = []
  · rw [if_pos hce] at hp
    exact absurd hp (by simp)
  · rw [if_neg hce] at hp
    by_cases hr2 : (tryBoards mat item
        (get_orientation_candidates item enforce).1 boards).2
    · rw [if_pos hr2] at hp
      rw [← Option.some.inj hp]
      exact tryBoards_inv mat kerf item _ hcands hk boards hb
    · rw [if_neg hr2] at hp
      cases hnb : newBoardPlace mat kerf (tryBoards mat item
          (get_orientation_candidates item enforce).1 boards).1.length item
          (get_orientation_candidates item enforce).1 with
      | none =>
        rw [hnb] at hp
        exact absurd hp (by simp)
      | some nb =>
        rw [hnb] at hp
        rw [← Option.some.inj hp]
        intro b hbmem
        rcases List.mem_append.mp hbmem with hmem | hnew
        · exact tryBoards_inv mat kerf item _ hcands hk boards hb b hmem
        · rw [List.mem_singleton.mp hnew]
          exact newBoardPlace_inv mat kerf _ item hk _ nb hcands hnb

lemma placeUnits_inv (mat : MaterialSpec) (kerf : ℚ) (enforce : Bool)
    (hk : 0 ≤ kerf) :
    ∀ (units : List ItemSpec) (boards boards2 : List BoardLayout),
      (∀ b ∈ boards, BoardInv mat kerf b) →
      (∀ u ∈ units, 0 ≤ u.length_mm ∧ 0 ≤ u.width_mm) →
      placeUnits mat kerf enforce boards units = some boards2 →
      ∀ b ∈ boards2, BoardInv mat kerf b := by
  intro units
  induction units with
  | nil =>
    intro boards boards2 hb _ hp
    rw [placeUnits] at hp
    rw [← Option.some.inj hp]
    exact hb
  | cons u rest ih =>
    intro boards boards2 hb hu hp
    rw [placeUnits] at hp
    cases hp1 : placeUnit mat kerf enforce boards u with
    | none =>
      rw [hp1] at hp
      exact absurd hp (by simp)
    | some boards1 =>
      rw [hp1] at hp
      have hu1 := hu u (List.mem_cons_self u rest)
      have hb1 := placeUnit_inv mat kerf enforce boards u boards1 hk hb
        hu1.1 hu1.2 hp1
      exact ih boards1 boards2 hb1
        (fun u2 hu2 => hu u2 (List.mem_cons_of_mem u hu2)) hp

lemma insertDescUnit_mem (a x : ItemSpec) :
    ∀ l : List ItemSpec, x ∈ insertDescUnit a l → x = a ∨ x ∈ l := by
  intro l
  induction l with
  | nil =>
    intro hx
    simp [insertDescUnit] at hx
    exact Or.inl hx
  | cons b t ih =>
    intro hx
    rw [insertDescUnit] at hx
    split_ifs at hx
    · rcases List.mem_cons.mp hx with he | hmem
      · exact Or.inl he
      · exact Or.inr hmem
    · rcases List.mem_cons.mp hx with he | hmem
      · exact Or.inr (by rw [he]; exact List.mem_cons_self b t)
      · rcases ih hmem with he2 | hmem2
        · exact Or.inl he2
        · exact Or.inr (List.mem_cons_of_mem b hmem2)

lemma sortUnitsDesc_mem (x : ItemSpec) :
    ∀ l : List ItemSpec, x ∈ sortUnitsDesc l → x ∈ l := by
  intro l
  induction l with
  | nil =>
    intro hx
    simp [sortUnitsDesc] at hx
  | cons a t ih =>
    intro hx
    rw [sortUnitsDesc] at hx
    rcases insertDescUnit_mem a x (sortUnitsDesc t) hx with he | hmem
    · rw [he]
      exact List.mem_cons_self a t
    · exact List.mem_cons_of_mem a (ih hmem)

/-- C2: every placement returned by `build_boards_for_material` lies entirely
within its board: 0 ≤ x, x + placed width ≤ material width, 0 ≤ y and
y + placed height ≤ material length (for a nonnegative kerf and nonnegative
item dimensions). -/
theorem c2_placements_in_bounds (mat : MaterialSpec) (items : List ItemSpec)
    (kerf : ℚ) (enforce : Bool) (bs : List BoardLayout)
    (hk : 0 ≤ kerf)
    (hdims : ∀ it ∈ items, 0 ≤ it.length_mm ∧ 0 ≤ it.width_mm)
    (hbuild : build_boards_for_material mat items kerf enforce = some bs) :
    ∀ b ∈ bs, ∀ p ∈ b.placed_items,
      0 ≤ p.x_mm ∧ p.x_mm + p.width_mm ≤ mat.width_mm ∧
      0 ≤ p.y_mm ∧ p.y_mm + p.height_mm ≤ mat.length_mm := by
  rw [build_boards_for_material] at hbuild
  have hunits : ∀ u ∈ sortUnitsDesc
      (items.flatMap fun it => List.replicate it.quantity it),
      0 ≤ u.length_mm ∧ 0 ≤ u.width_mm := by
    intro u hu
    have hu2 := sortUnitsDesc_mem u _ hu
    obtain ⟨it, hit, hrep⟩ := List.mem_flatMap.mp hu2
    rw [List.eq_of_mem_replicate hrep]
    exact hdims it hit
  have hall := placeUnits_inv mat kerf enforce hk _ [] bs (by simp) hunits hbuild
  intro b hb p hpm
  obtain ⟨_, _, _, hitems⟩ := hall b hb
  exact hitems p hpm

/-- Witness for C2: a single 300×500 item packed on a 1000×1000 board. -/
theorem c2_placements_in_bounds_witness :
    (0 : ℚ) ≤ 0 ∧
    ∀ b ∈ [BoardLayout.mk matC1 0 0
        [⟨0, 300, 1000, [⟨itC1a, "M", 0, 0, 0, 500, 300, false⟩], 500⟩]
        [⟨itC1a, "M", 0, 0, 0, 500, 300, false⟩] []],
      ∀ p ∈ b.placed_items,
        0 ≤ p.x_mm ∧ p.x_mm + p.width_mm ≤ matC1.width_mm ∧
        0 ≤ p.y_mm ∧ p.y_mm + p.height_mm ≤ matC1.length_mm :=
  ⟨le_refl 0,
    c2_placements_in_bounds matC1 [itC1a] 0 true _ (le_refl 0)
      (by
        intro it hit
        rw [List.mem_singleton.mp hit]
        constructor
        · norm_num [itC1a]
        · norm_num [itC1a])
      (by with_unfolding_all decide)⟩
